import Mathlib

/-!
A verification development for the Subtitle-Generator-AI repository.

The pipeline under study converts a video into an SRT subtitle file:
`SubtitleProcessor.extract_audio` shells out to FFmpeg, `transcribe_audio`
delegates to the Whisper model, `generate_srt` composes the model's timed
segments into SRT text via the third-party `srt` library, and the Tkinter
GUI (`SubtitleGeneratorApp`) drives one background worker per job.

The embedding below translates the relevant Python functions into Lean:
* seconds are modelled as exact rationals (the claims' inputs are exactly
  representable in binary floating point, and every operation the code
  performs on them — `datetime.timedelta` conversion and division of 16-bit
  integers by the power of two 32768 — is exact, so the rational model
  agrees with the floating-point execution on all inputs considered here);
* `datetime.timedelta` values are modelled by their total signed
  microsecond count (Python normalises a timedelta to
  `days/seconds/microseconds` with `0 ≤ seconds < 86400` and
  `0 ≤ microseconds < 10^6`, which is recovered here by floor division);
* the `srt` library calls made by `generate_srt` (`srt.Subtitle`,
  `srt.compose` with its defaults `reindex=True, start_index=1,
  strict=True, eol=None`) are translated from that library's source:
  `compose` runs `sort_and_reindex` (Python `sorted`, a stable sort by the
  `Subtitle` ordering `(start, end, index)`; subtitles whose content is
  empty or whitespace-only are dropped; a negative `start` is clamped to
  zero; surviving subtitles are renumbered from `start_index`) and then
  joins `Subtitle.to_srt` blocks, where `to_srt` legalises the content with
  `make_legal_content` (content that is empty, starts with a newline, or
  contains a blank line has its empty lines removed) and renders
  `index\nstart --> end\ncontent\n\n` with timestamps produced by
  `timedelta_to_srt_timestamp`;
* external effects (the FFmpeg subprocess, the Whisper model, the
  filesystem) are modelled by explicit environment records, and Python
  exceptions by `Except`.
-/

namespace SubGen

/-- Round half to even, as Python does when converting a float number of
seconds to the integral microsecond count of a `datetime.timedelta`.  The
rational `q` is `q.num / q.den` with `q.den > 0`; its floor is
`q.num.fdiv q.den` with remainder `r`, and the fractional part `r / den`
is compared against one half by comparing `2 * r` with `den`. -/
def roundHalfEven (q : ℚ) : Int :=
  let b : Int := (q.den : Int)
  let n := q.num.fdiv b
  let r := q.num - n * b
  if 2 * r < b then n
  else if b < 2 * r then n + 1
  else if n % 2 = 0 then n else n + 1

/-- `datetime.timedelta(seconds=s)` for a number `s` of seconds, as a total
signed count of microseconds: `s * 10^6` (formed on the numerator, so that
the kernel can evaluate it) rounded half to even. -/
def secondsToMicros (q : ℚ) : Int := roundHalfEven (mkRat (q.num * 1000000) q.den)

/-- One transcription segment as consumed by `generate_srt`: a dictionary
from the Whisper result.  `generate_srt` reads only the keys `start`,
`end` and `text`; the field `id` stands for the segment's own index key
(and any other key), which the composer never reads.  The source dict key
`end` is a Lean keyword and is named `stop` here. -/
structure Segment where
  id : Int := 0
  start : ℚ
  stop : ℚ
  text : String
  deriving Repr, DecidableEq

/-- `srt.Subtitle`: index, start/end timestamps (timedeltas, modelled in
microseconds) and content.  `proprietary` defaults to the empty string and
is never set by this repository. -/
structure Subtitle where
  index : Int
  start : Int
  stop : Int
  content : String
  proprietary : String := ""
  deriving Repr, DecidableEq

/-- Python `"%02d" % n`: decimal rendering left-padded with `0` to width
two (a negative sign counts towards the width). -/
def fmt2 (n : Int) : String :=
  if 0 ≤ n ∧ n < 10 then "0" ++ toString n else toString n

/-- Python `"%03d" % n` for the millisecond field. -/
def fmt3 (n : Int) : String :=
  if 0 ≤ n ∧ n < 10 then "00" ++ toString n
  else if 0 ≤ n ∧ n < 100 then "0" ++ toString n
  else toString n

/-- `srt.timedelta_to_srt_timestamp`: renders a timedelta (given as total
microseconds) as `"%02d:%02d:%02d,%03d" % (hrs, mins, secs, msecs)`, where
the fields come from the normalised `days/seconds/microseconds` form and
`hrs` absorbs the (possibly negative) day count. -/
def timedelta_to_srt_timestamp (t : Int) : String :=
  let days := t.fdiv 86400000000
  let rem := t.fmod 86400000000
  let secsTotal := rem.fdiv 1000000
  let micros := rem.fmod 1000000
  let hrs := secsTotal.fdiv 3600 + days * 24
  let secsRemainder := secsTotal.fmod 3600
  let mins := secsRemainder.fdiv 60
  let secs := secsRemainder.fmod 60
  let msecs := micros.fdiv 1000
  fmt2 hrs ++ ":" ++ fmt2 mins ++ ":" ++ fmt2 secs ++ "," ++ fmt3 msecs

/-- Python `str.split("\n")` on the character list of a string.  Splitting
the empty string yields `[""]`, matching Python. -/
def splitLines : List Char → List (List Char)
  | [] => [[]]
  | c :: rest =>
    if c = '\n' then [] :: splitLines rest
    else
      match splitLines rest with
      | [] => [[c]]
      | l :: ls => (c :: l) :: ls

/-- `srt.make_legal_content`: content that is nonempty, does not start with
a newline and contains no two consecutive newlines is returned unchanged;
otherwise the empty lines are removed and the rest re-joined with `"\n"`. -/
def make_legal_content (content : String) : String :=
  if content.data ≠ [] ∧ content.data.head? ≠ some '\n' ∧
      ¬ (['\n', '\n'] <:+: content.data) then
    content
  else
    String.mk (List.intercalate ['\n'] ((splitLines content.data).filter (fun l => l ≠ [])))

/-- `srt.Subtitle.to_srt` with the `compose` defaults `strict=True`,
`eol="\n"`: renders `index\nstart --> end[ proprietary]\ncontent\n\n`.
(`idx=self.index or 0` is the identity on integers except that it maps a
falsy `0` to `0`, hence the plain index here.) -/
def to_srt (s : Subtitle) : String :=
  toString s.index ++ "\n" ++
    timedelta_to_srt_timestamp s.start ++ " --> " ++
    timedelta_to_srt_timestamp s.stop ++
    (if s.proprietary = "" then "" else " " ++ s.proprietary) ++ "\n" ++
    make_legal_content s.content ++ "\n\n"

/-- The `srt.Subtitle` ordering used by Python's `sorted` inside
`sort_and_reindex`: lexicographic on `(start, end, index)`.  This is a
total preorder, and a stable sort with respect to a total preorder is
uniquely determined, so Python's stable `sorted` and the stable insertion
sort used below compute the same list. -/
def subLE (a b : Subtitle) : Prop :=
  a.start < b.start ∨ (a.start = b.start ∧
    (a.stop < b.stop ∨ (a.stop = b.stop ∧ a.index ≤ b.index)))

instance : DecidableRel subLE := fun a b => by
  unfold subLE
  infer_instance

/-- Python `not content.strip()`: every character of the content is
whitespace (the ASCII whitespace characters stripped by `str.strip`; the
further Unicode space characters Python also strips do not occur in the
inputs considered in this development). -/
def isAllWhitespace (s : String) : Bool :=
  s.data.all fun c =>
    c = ' ' ∨ c = '\t' ∨ c = '\n' ∨ c = '\r' ∨ c = '\x0b' ∨ c = '\x0c'

/-- The loop body of `srt.sort_and_reindex` over the already-sorted list:
`sub_num` enumerates from `start_index`, whitespace-only subtitles are
skipped (counted in `skipped`), a negative start is clamped to zero, and
each kept subtitle is assigned `index = sub_num - skipped`. -/
def reindexGo : List Subtitle → Int → Int → List Subtitle
  | [], _, _ => []
  | s :: rest, subNum, skipped =>
    if isAllWhitespace s.content then
      reindexGo rest (subNum + 1) (skipped + 1)
    else
      { s with
        index := subNum - skipped,
        start := if s.start < 0 then 0 else s.start } :: reindexGo rest (subNum + 1) skipped

/-- `srt.sort_and_reindex` with the `compose` defaults `start_index=1`,
`skip=True`. -/
def sort_and_reindex (subs : List Subtitle) : List Subtitle :=
  reindexGo (subs.insertionSort subLE) 1 0

/-- Python `"".join`, the string concatenation performed by
`srt.compose`. -/
def joinList : List String → String
  | [] => ""
  | s :: rest => s ++ joinList rest

/-- `srt.compose` with its default arguments, as called by
`generate_srt`. -/
def compose (subs : List Subtitle) : String :=
  joinList ((sort_and_reindex subs).map to_srt)

/-- One iteration of the loop in `SubtitleProcessor.generate_srt`:
`srt.Subtitle(index=index+1, start=timedelta(seconds=segment['start']),
end=timedelta(seconds=segment['end']), content=segment['text'])` for the
segment at zero-based position `i`. -/
def mkSubtitle (i : Nat) (seg : Segment) : Subtitle :=
  { index := (i : Int) + 1,
    start := secondsToMicros seg.start,
    stop := secondsToMicros seg.stop,
    content := seg.text }

/-- The `for index, segment in enumerate(segments)` loop of
`generate_srt`, building the `subtitles` list. -/
def toSubtitles : Nat → List Segment → List Subtitle
  | _, [] => []
  | i, seg :: rest => mkSubtitle i seg :: toSubtitles (i + 1) rest

/-- `SubtitleProcessor.generate_srt` (identical in
`subtitle_generator.py`, `sub.py` and `test_sub.py`). -/
def generate_srt (segments : List Segment) : String :=
  compose (toSubtitles 0 segments)

/-- The cue list that `generate_srt` serialises: the output of the srt
library's sort-and-reindex pass over the subtitles built from the
segments.  `generate_srt segments = joinList ((composedCues segments).map
to_srt)` holds by definition. -/
def composedCues (segments : List Segment) : List Subtitle :=
  sort_and_reindex (toSubtitles 0 segments)

/-! ### Paths

POSIX forms of the `os.path` helpers the processor uses to derive output
file names.  (On Windows the separator differs; no claim depends on it.) -/

/-- `os.path.basename`: the part after the last slash. -/
def basenameChars (l : List Char) : List Char :=
  (l.reverse.takeWhile (fun c => c ≠ '/')).reverse

/-- The stem of `os.path.splitext` applied to a basename: drop from the
last dot on, unless every character before that dot is itself a dot (so
`".bashrc"` keeps its name). -/
def stemChars (l : List Char) : List Char :=
  let dotIdxs := (List.range l.length).filter fun i => l.get? i = some '.'
  match dotIdxs.getLast? with
  | none => l
  | some i => if (l.take i).all (fun c => c = '.') then l else l.take i

/-- `os.path.join dir file` for a relative `file`. -/
def joinPath (dir file : String) : String :=
  if dir = "" then file
  else if dir.data.getLast? = some '/' then dir ++ file
  else dir ++ "/" ++ file

/-- The audio path derived by `extract_audio`:
`os.path.join(output_folder, splitext(basename(video_path))[0] + ".mp3")`. -/
def audioPath (video_path output_folder : String) : String :=
  joinPath output_folder (String.mk (stemChars (basenameChars video_path.data)) ++ ".mp3")

/-- The subtitle path derived by `save_subtitles`:
`os.path.join(output_folder, splitext(basename(video_path))[0] + ".srt")`. -/
def srtPath (video_path output_folder : String) : String :=
  joinPath output_folder (String.mk (stemChars (basenameChars video_path.data)) ++ ".srt")

/-! ### The processor and its environment -/

/-- Outcome of one `subprocess.run` invocation: the exit code, the bytes
captured from standard output and the diagnostic text captured from
standard error (`capture_output=True`). -/
structure ProcResult where
  exitCode : Nat
  stdout : List Nat := []
  stderr : String := ""
  deriving Repr, DecidableEq

/-- Environment of one `extract_audio` call: the outcome of the FFmpeg
process and the effect that process had on the filesystem — whether the
derived output file was produced, and its size in bytes.  The Python
function consults only the exit code. -/
structure ExtractEnv where
  run : ProcResult
  fileWritten : Bool
  fileSize : Nat
  deriving Repr, DecidableEq

/-- The Python exceptions that cross the job boundary.
`calledProcessError` is `subprocess.CalledProcessError`, raised by
`subprocess.run(..., check=True)`; with `capture_output=True` it carries
the process's captured stderr.  This plays the role the specification
names `ExtractionError`. -/
inductive PyError where
  | calledProcessError (exitCode : Nat) (stderr : String)
  | runtimeError (msg : String)
  | ioError (msg : String)
  deriving Repr, DecidableEq

/-- `SubtitleProcessor.extract_audio`: derives the audio path, runs FFmpeg
with `check=True, capture_output=True` and returns the path.  `check=True`
raises `CalledProcessError` exactly when the exit code is non-zero; the
`except` block logs the error and re-raises it.  The function never
inspects the output file. -/
def extract_audio (env : ExtractEnv) (video_path output_folder : String) :
    Except PyError String :=
  if env.run.exitCode ≠ 0 then
    Except.error (PyError.calledProcessError env.run.exitCode env.run.stderr)
  else
    Except.ok (audioPath video_path output_folder)

/-- After `extract_audio` has run: does the file at the derived audio path
exist, and is it non-empty?  Both are determined by what the external
process did. -/
def extractedFileExists (env : ExtractEnv) : Bool := env.fileWritten

def extractedFileNonEmpty (env : ExtractEnv) : Bool :=
  env.fileWritten && decide (0 < env.fileSize)

/-- The Whisper result dict: `transcribe_audio` returns it whole and
`process_video` reads its `segments` list. -/
structure TranscribeResult where
  segments : List Segment
  deriving Repr, DecidableEq

/-- `SubtitleProcessor.transcribe_audio`: model loading and inference are
external; the environment supplies either the result dict or the message
of the exception the Whisper call raised (the `except` block logs it and
re-raises). -/
def transcribe_audio (outcome : Except String TranscribeResult) :
    Except PyError TranscribeResult :=
  match outcome with
  | Except.error msg => Except.error (PyError.runtimeError msg)
  | Except.ok r => Except.ok r

/-- `SubtitleProcessor.save_subtitles`: writes the composed SRT text to
`<stem>.srt` in the output folder and returns that path; `writeOk` models
whether `open`/`write` succeed. -/
def save_subtitles (writeOk : Bool) (_subtitles video_path output_folder : String) :
    Except PyError String :=
  if writeOk then Except.ok (srtPath video_path output_folder)
  else Except.error (PyError.ioError "write failed")

/-- Environment of one `process_video` job: the extraction process
outcome, the transcription outcome and whether the final write
succeeds. -/
structure JobEnv where
  extract : ExtractEnv
  transcribe : Except String TranscribeResult
  writeOk : Bool

/-- The pipeline phases of `process_video`, recorded in the order they
start. -/
inductive Phase
  | extraction
  | transcription
  | composition
  | saving
  deriving Repr, DecidableEq

/-- `SubtitleProcessor.process_video`: extract audio, transcribe, compose
the SRT text, save it.  An exception from any step propagates to the
caller and the following steps never run.  The first component records the
phases that started, in order. -/
def process_video (env : JobEnv) (video_path output_folder : String) :
    List Phase × Except PyError String :=
  match extract_audio env.extract video_path output_folder with
  | Except.error e => ([Phase.extraction], Except.error e)
  | Except.ok _audio_path =>
    match transcribe_audio env.transcribe with
    | Except.error e => ([Phase.extraction, Phase.transcription], Except.error e)
    | Except.ok result =>
      let subtitles := generate_srt result.segments
      match save_subtitles env.writeOk subtitles video_path output_folder with
      | Except.error e =>
        ([Phase.extraction, Phase.transcription, Phase.composition, Phase.saving],
          Except.error e)
      | Except.ok output_path =>
        ([Phase.extraction, Phase.transcription, Phase.composition, Phase.saving],
          Except.ok output_path)

/-! ### The GUI worker and submission logic -/

/-- The pieces of `SubtitleGeneratorApp` state read or written by
`process_video_thread`, `cancel_processing` and `start_processing`.
`progress` is a `DoubleVar` that only ever holds the whole numbers used by
the code. -/
structure WorkerState where
  is_processing : Bool
  status : String
  progress : Int
  successShown : Bool
  errorShown : Bool
  deriving Repr, DecidableEq

/-- `SubtitleGeneratorApp.cancel_processing` at the point where the user
has confirmed the dialog: if a job is processing, it logs, sets the status
and clears `is_processing`; otherwise nothing happens. -/
def cancel_processing (s : WorkerState) : WorkerState :=
  if s.is_processing then
    { s with status := "Cancelling...", is_processing := false }
  else s

/-- `SubtitleGeneratorApp.process_video_thread`, with the UI thread's
cancellation action interleaved at one of the worker's suspension
boundaries: `0` before extraction starts, `1` after extraction completes
and before transcription starts, `2` after transcription and before
composition/saving, `3` after `process_video` returns, `4` immediately
before the `if not self.is_processing` check, and `none` for no
cancellation.  `is_processing` is written `true` only by
`start_processing`, so within one run its value at the check is fixed by
the initial state and the cancellation events that precede the check.  On
an exception, the `except` block sets the status, logs and shows the error
dialog; the `finally` block always clears `is_processing`. -/
def process_video_thread (env : JobEnv) (video_path output_folder : String)
    (cancelAt : Option Nat) (s0 : WorkerState) : WorkerState :=
  let c := fun (i : Nat) (s : WorkerState) =>
    if cancelAt = some i then cancel_processing s else s
  let fail := fun (s : WorkerState) =>
    { s with status := "Error", errorShown := true, is_processing := false }
  let s1 := c 0 s0
  match extract_audio env.extract video_path output_folder with
  | Except.error _ => fail s1
  | Except.ok _ =>
    let s2 := c 1 s1
    match transcribe_audio env.transcribe with
    | Except.error _ => fail s2
    | Except.ok result =>
      let s3 := c 2 s2
      let subtitles := generate_srt result.segments
      match save_subtitles env.writeOk subtitles video_path output_folder with
      | Except.error _ => fail s3
      | Except.ok _output_path =>
        let s4 := c 3 s3
        let s5 := { s4 with status := "Completed", progress := 100 }
        let s6 := c 4 s5
        if s6.is_processing = false then
          { s6 with is_processing := false }
        else
          { s6 with successShown := true, is_processing := false }

/-- The `SubtitleGeneratorApp` fields that `start_processing` reads or
writes. -/
structure AppState where
  video_path : String
  output_folder : String
  model_size : String
  language : String
  status : String
  progress : Int
  is_processing : Bool
  deriving Repr, DecidableEq

/-- What `start_processing` did: warned that a job is already running,
rejected the video path, failed to create the output folder, or started
the worker thread. -/
inductive StartResult
  | warnedAlreadyProcessing
  | errorInvalidVideo
  | errorOutputFolder
  | workerStarted
  deriving Repr, DecidableEq

/-- The filesystem answers `start_processing` consults: `os.path.exists`
on the video path and the result of `ensure_directory_exists` on the
output folder. -/
structure FsEnv where
  pathExists : String → Bool
  ensureDirOk : String → Bool

/-- `posixpath.dirname`: everything before the last slash, with trailing
slashes stripped unless that head is entirely slashes. -/
def dirname (p : String) : String :=
  let l := p.data
  let base := (l.reverse.takeWhile (fun c => c ≠ '/')).reverse
  let head := l.take (l.length - base.length)
  if head.all (fun c => c = '/') then String.mk head
  else String.mk ((head.reverse.dropWhile (fun c => c = '/')).reverse)

/-- `SubtitleGeneratorApp.start_processing`: reject when a job is already
processing; validate the video path; default the output folder to the
video's directory; ensure the output directory; then set `is_processing`
and start the worker thread.  Only the `workerStarted` result starts a
thread. -/
def start_processing (fs : FsEnv) (s : AppState) : AppState × StartResult :=
  if s.is_processing then (s, StartResult.warnedAlreadyProcessing)
  else if s.video_path = "" ∨ fs.pathExists s.video_path = false then
    (s, StartResult.errorInvalidVideo)
  else
    let s1 :=
      if s.output_folder = "" then { s with output_folder := dirname s.video_path } else s
    if fs.ensureDirOk s1.output_folder = false then (s1, StartResult.errorOutputFolder)
    else ({ s1 with is_processing := true }, StartResult.workerStarted)

/-! ### The patched Whisper audio loader -/

/-- `np.frombuffer(out, np.int16)` on a little-endian machine: consecutive
byte pairs read as signed 16-bit integers.  (NumPy raises `ValueError`
when the buffer length is not a multiple of two; `patched_load_audio`
checks that before decoding.) -/
def bytesToInt16LE : List Nat → List Int
  | lo :: hi :: rest =>
    (let v : Int := (lo : Int) + 256 * (hi : Int)
     if v < 32768 then v else v - 65536) :: bytesToInt16LE rest
  | _ => []

/-- `patched_load_audio` (whisper_patch.py; textually repeated in sub.py,
subtitle_generator.py and test_sub.py): runs FFmpeg to decode and resample
the input to raw mono 16 kHz s16le PCM on stdout and returns
`np.frombuffer(out, np.int16).flatten().astype(np.float32) / 32768.0`.  A
non-zero exit raises `RuntimeError` carrying the captured stderr.  Each
int16 value is exactly representable in float32 and the division by the
power of two 32768 is exact, so the rational samples equal the float32
samples. -/
def patched_load_audio (run : ProcResult) : Except String (List ℚ) :=
  if run.exitCode ≠ 0 then Except.error ("FFmpeg error: " ++ run.stderr)
  else if run.stdout.length % 2 ≠ 0 then
    Except.error "buffer size must be a multiple of element size"
  else Except.ok ((bytesToInt16LE run.stdout).map fun v => mkRat v 32768)

/-- The lexicographic order on segments that, after conversion of the
start/end offsets to timedeltas (microseconds), matches the order the srt
library sorts by: ascending start, ties broken by ascending end. -/
def segLE (a b : Segment) : Prop :=
  secondsToMicros a.start < secondsToMicros b.start ∨
    (secondsToMicros a.start = secondsToMicros b.start ∧
      secondsToMicros a.stop ≤ secondsToMicros b.stop)

instance : DecidableRel segLE := fun a b => by
  unfold segLE
  infer_instance

/-- The three segment fields `generate_srt` reads: the dict keys `start`,
`end` and `text`. -/
def observableFields (s : Segment) : ℚ × ℚ × String := (s.start, s.stop, s.text)

/-- An environment whose extraction process fails with exit code 1 and
stderr `boom`. -/
def failingExtractEnv : ExtractEnv where
  run := { exitCode := 1, stderr := "boom" }
  fileWritten := false
  fileSize := 0

/-- A job whose extraction fails (exit code 1, stderr `boom`) while the
later phases would succeed. -/
def failingExtractJob : JobEnv where
  extract := failingExtractEnv
  transcribe := Except.ok { segments := [] }
  writeOk := true

/-- A job in which every phase succeeds: the extraction process exits 0
and writes a file, transcription returns one segment, the write goes
through. -/
def successfulJob : JobEnv where
  extract := { run := { exitCode := 0 }, fileWritten := true, fileSize := 5 }
  transcribe := Except.ok { segments := [{ start := 0, stop := 1, text := "a" }] }
  writeOk := true

/-- The GUI state right after `start_processing` has accepted a job. -/
def justStartedState : WorkerState where
  is_processing := true
  status := "Ready"
  progress := 0
  successShown := false
  errorShown := false

/-! ### Helper lemmas about the composer -/

theorem toSubtitles_length : ∀ (i : Nat) (segs : List Segment),
    (toSubtitles i segs).length = segs.length
  | _, [] => rfl
  | i, _ :: rest => by simp [toSubtitles, toSubtitles_length (i + 1) rest]

theorem toSubtitles_map_content : ∀ (i : Nat) (segs : List Segment),
    (toSubtitles i segs).map Subtitle.content = segs.map Segment.text
  | _, [] => rfl
  | i, seg :: rest => by
    simp [toSubtitles, mkSubtitle, toSubtitles_map_content (i + 1) rest]

theorem toSubtitles_mem : ∀ {i : Nat} {segs : List Segment} {s : Subtitle},
    s ∈ toSubtitles i segs → ∃ k seg, seg ∈ segs ∧ s = mkSubtitle k seg ∧ i ≤ k := by
  intro i segs
  induction segs generalizing i with
  | nil => intro s hs; simp [toSubtitles] at hs
  | cons a rest ih =>
    intro s hs
    simp only [toSubtitles, List.mem_cons] at hs
    rcases hs with h | h
    · exact ⟨i, a, List.mem_cons_self a rest, h, Nat.le_refl i⟩
    · obtain ⟨k, seg, hseg, heq, hik⟩ := ih h
      exact ⟨k, seg, List.mem_cons_of_mem a hseg, heq, Nat.le_of_succ_le hik⟩

theorem toSubtitles_mem_of_mem : ∀ (i : Nat) {segs : List Segment} {seg : Segment},
    seg ∈ segs → ∃ k, mkSubtitle k seg ∈ toSubtitles i segs := by
  intro i segs
  induction segs generalizing i with
  | nil => intro seg hseg; simp at hseg
  | cons a rest ih =>
    intro seg hseg
    rcases List.mem_cons.mp hseg with h | h
    · exact ⟨i, by simp [toSubtitles, h]⟩
    · obtain ⟨k, hk⟩ := ih (i + 1) h
      exact ⟨k, by simp [toSubtitles, Or.inr hk]⟩

theorem toSubtitles_pairwise {segs : List Segment} (h : segs.Pairwise segLE) :
    ∀ i : Nat, (toSubtitles i segs).Pairwise subLE := by
  induction segs with
  | nil => intro i; simp [toSubtitles]
  | cons a rest ih =>
    intro i
    rcases List.pairwise_cons.mp h with ⟨hhead, htail⟩
    refine List.pairwise_cons.mpr ⟨?_, ih htail (i + 1)⟩
    intro b hb
    obtain ⟨k, seg, hseg, hbeq, hik⟩ := toSubtitles_mem hb
    subst hbeq
    have hle := hhead seg hseg
    have hidx : ((i : Int) + 1) ≤ ((k : Int) + 1) := by
      have : (i : Int) ≤ (k : Int) := Int.ofNat_le.mpr (Nat.le_of_succ_le hik)
      omega
    rcases hle with hlt | ⟨heq, hstop⟩
    · exact Or.inl hlt
    · rcases lt_or_eq_of_le hstop with hlt2 | heq2
      · exact Or.inr ⟨heq, Or.inl hlt2⟩
      · exact Or.inr ⟨heq, Or.inr ⟨heq2, hidx⟩⟩

theorem reindexGo_map_index : ∀ {subs : List Subtitle}
    (_ : ∀ s ∈ subs, isAllWhitespace s.content = false) (n k : Int),
    (reindexGo subs n k).map Subtitle.index
      = (List.range subs.length).map (fun (j : Nat) => n - k + (j : Int)) := by
  intro subs
  induction subs with
  | nil => intro h n k; simp [reindexGo]
  | cons s rest ih =>
    intro h n k
    have hs : isAllWhitespace s.content = false := h s (List.mem_cons_self s rest)
    have hrest : ∀ t ∈ rest, isAllWhitespace t.content = false := fun t ht =>
      h t (List.mem_cons_of_mem s ht)
    simp only [reindexGo, hs, Bool.false_eq_true, if_false, List.map_cons,
      List.length_cons, List.range_succ_eq_map, List.map_map, ih hrest (n + 1) k]
    refine List.cons_eq_cons.mpr ⟨by simp, ?_⟩
    apply List.map_congr_left
    intro j hj
    simp only [Function.comp_apply, Nat.cast_succ]
    omega

theorem reindexGo_map_content : ∀ {subs : List Subtitle}
    (_ : ∀ s ∈ subs, isAllWhitespace s.content = false) (n k : Int),
    (reindexGo subs n k).map Subtitle.content = subs.map Subtitle.content := by
  intro subs
  induction subs with
  | nil => intro h n k; simp [reindexGo]
  | cons s rest ih =>
    intro h n k
    have hs : isAllWhitespace s.content = false := h s (List.mem_cons_self s rest)
    have hrest : ∀ t ∈ rest, isAllWhitespace t.content = false := fun t ht =>
      h t (List.mem_cons_of_mem s ht)
    simp [reindexGo, hs, ih hrest (n + 1) k]

/-! ### Claims about the composer -/

/-- C1 counterexample: as stated, the claim fails on the code.  First, a
segment whose text is whitespace-only is dropped by the srt library's
`sort_and_reindex`, so a one-segment input yields an empty document with
no cue `1`.  Second, for equal start times the library orders cues by end
time, so the display indices are not assigned by position in the input
list. -/
theorem claim_C1_counterexample :
    generate_srt [{ start := 0, stop := 1, text := " " }] = "" ∧
      (composedCues [{ id := 1, start := 0, stop := 5, text := "a" },
          { id := 2, start := 0, stop := 2, text := "b" }]).map Subtitle.content
        = ["b", "a"] :=
  ⟨by decide, by decide⟩

/-- C1 (amended): for every non-empty segment list that is sorted in
non-decreasing `(start, end)` lexicographic order after conversion of the
offsets to timedeltas, and whose every text contains a non-whitespace
character, the cues that `generate_srt` serialises carry display indices
exactly `1..N`, contiguous, assigned by position in the input list
(the i-th cue's text is the i-th segment's text), regardless of the
`id`/index fields carried by the input segments. -/
theorem claim_C1_amended (segs : List Segment) (_hne : segs ≠ [])
    (hsorted : segs.Pairwise segLE)
    (htext : ∀ seg ∈ segs, isAllWhitespace seg.text = false) :
    (composedCues segs).map Subtitle.index
        = (List.range segs.length).map (fun (j : Nat) => 1 + (j : Int)) ∧
      (composedCues segs).map Subtitle.content = segs.map Segment.text ∧
      generate_srt segs = joinList ((composedCues segs).map to_srt) := by
  have hsub : (toSubtitles 0 segs).Pairwise subLE := toSubtitles_pairwise hsorted 0
  have hsort : (toSubtitles 0 segs).insertionSort subLE = toSubtitles 0 segs :=
    List.Sorted.insertionSort_eq hsub
  have hws : ∀ s ∈ toSubtitles 0 segs, isAllWhitespace s.content = false := by
    intro s hs
    obtain ⟨k, seg, hseg, heq, _⟩ := toSubtitles_mem hs
    subst heq
    exact htext seg hseg
  refine ⟨?_, ?_, rfl⟩
  · rw [composedCues, sort_and_reindex, hsort, reindexGo_map_index hws 1 0,
      toSubtitles_length]
    apply List.map_congr_left
    intro j hj
    omega
  · rw [composedCues, sort_and_reindex, hsort, reindexGo_map_content hws 1 0,
      toSubtitles_map_content]

/-- C1 witness: the amended theorem applied to a concrete two-segment
list whose `id` fields are out of order. -/
theorem claim_C1_witness :
    ([{ id := 5, start := 0, stop := 1, text := "a" },
        { id := 3, start := 1, stop := 2, text := "b" }] : List Segment) ≠ [] ∧
      (composedCues [{ id := 5, start := 0, stop := 1, text := "a" },
          { id := 3, start := 1, stop := 2, text := "b" }]).map Subtitle.index
        = (List.range 2).map (fun (j : Nat) => 1 + (j : Int)) :=
  ⟨by decide,
    (claim_C1_amended
      [{ id := 5, start := 0, stop := 1, text := "a" },
        { id := 3, start := 1, stop := 2, text := "b" }]
      (by decide) (by decide) (by decide)).1⟩

/-- C6: composing the empty segment sequence yields the empty document,
and composing the single segment with start 1.0 s, end 2.5 s and text
`"hi"` yields exactly one cue block with index 1, the timestamp range
`00:00:01,000 --> 00:00:02,500` and text `hi`. -/
theorem claim_C6 :
    generate_srt [] = "" ∧
      generate_srt [{ start := 1, stop := mkRat 5 2, text := "hi" }]
        = "1\n00:00:01,000 --> 00:00:02,500\nhi\n\n" :=
  ⟨by decide, by decide⟩

/-- C10: the SRT text produced by `generate_srt` is determined solely by
each input segment's start, end and text values: two equally long segment
lists that agree pointwise on those three keys produce identical output,
whatever other keys (such as the model's own `id` field) the segment
dictionaries carry. -/
theorem claim_C10 (l1 l2 : List Segment)
    (h : l1.map observableFields = l2.map observableFields) :
    generate_srt l1 = generate_srt l2 := by
  suffices h2 : ∀ i : Nat, toSubtitles i l1 = toSubtitles i l2 by
    rw [generate_srt, generate_srt, h2 0]
  induction l1 generalizing l2 with
  | nil =>
    rw [List.map_nil] at h
    have h0 : l2 = [] := List.map_eq_nil_iff.mp h.symm
    intro i
    rw [h0]
  | cons a rest ih =>
    cases l2 with
    | nil => simp at h
    | cons b rest2 =>
      simp only [List.map_cons, List.cons.injEq] at h
      obtain ⟨hab, htail⟩ := h
      have hfields : a.start = b.start ∧ a.stop = b.stop ∧ a.text = b.text := by
        simpa [observableFields, Prod.ext_iff] using hab
      intro i
      simp only [toSubtitles]
      rw [show mkSubtitle i a = mkSubtitle i b by
        simp [mkSubtitle, hfields.1, hfields.2.1, hfields.2.2]]
      rw [ih rest2 htail (i + 1)]

/-- C10 witness: two one-segment lists differing only in the segment's
`id` field agree on the observable fields and produce identical SRT
text. -/
theorem claim_C10_witness :
    ([{ id := 7, start := 0, stop := 1, text := "x" }] : List Segment).map observableFields
        = ([{ id := 42, start := 0, stop := 1, text := "x" }] : List Segment).map
            observableFields ∧
      generate_srt [{ id := 7, start := 0, stop := 1, text := "x" }]
        = generate_srt [{ id := 42, start := 0, stop := 1, text := "x" }] :=
  ⟨rfl, claim_C10 [{ id := 7, start := 0, stop := 1, text := "x" }]
    [{ id := 42, start := 0, stop := 1, text := "x" }] rfl⟩

/-- C5 counterexample: end offsets are not clamped to non-negative.  For a
segment with end offset -1.0 s the composer renders the end timestamp as
`-1:59:59,000` — the negative timedelta normalised to -1 day + 23:59:59
and printed with a negative hour field, which is not clamped and not of
the claimed `HH:MM:SS,mmm` shape.  (Only the start offset is clamped, by
`sort_and_reindex`.) -/
theorem claim_C5_counterexample :
    generate_srt [{ start := 0, stop := -1, text := "x" }]
      = "1\n00:00:00,000 --> -1:59:59,000\nx\n\n" := by decide

/-- C5 (amended): for every segment with non-whitespace text, the composer
renders the cue's start timestamp from the start offset clamped to
non-negative and the end timestamp from the unclamped end offset, in the
srt library's timestamp format (which agrees with `HH:MM:SS,mmm` for
non-negative offsets below a day); in particular a start offset of 75.5 s
renders as `00:01:15,500` and 0.0 renders as `00:00:00,000`. -/
theorem claim_C5_amended :
    (∀ seg : Segment, isAllWhitespace seg.text = false →
        generate_srt [seg]
          = "1\n"
            ++ timedelta_to_srt_timestamp
                (if secondsToMicros seg.start < 0 then 0 else secondsToMicros seg.start)
            ++ " --> " ++ timedelta_to_srt_timestamp (secondsToMicros seg.stop) ++ "\n"
            ++ make_legal_content seg.text ++ "\n\n") ∧
      timedelta_to_srt_timestamp (secondsToMicros (mkRat 151 2)) = "00:01:15,500" ∧
      timedelta_to_srt_timestamp (secondsToMicros 0) = "00:00:00,000" := by
  refine ⟨?_, by decide, by decide⟩
  intro seg h
  have hone : (1 - 0 : Int) = 1 := by norm_num
  simp only [generate_srt, compose, sort_and_reindex, toSubtitles, mkSubtitle,
    List.insertionSort, List.orderedInsert, reindexGo, h, Bool.false_eq_true, if_false,
    List.map_cons, List.map_nil, joinList, to_srt, hone]
  have hstr : toString (1 : Int) = "1" := rfl
  simp only [hstr]
  apply String.ext
  simp [String.data_append]

/-- C5 witness: the amended rendering applied to the concrete segment with
start 75.5 s, end 80 s and text `x`. -/
theorem claim_C5_witness :
    generate_srt [{ start := mkRat 151 2, stop := 80, text := "x" }]
      = "1\n"
        ++ timedelta_to_srt_timestamp
            (if secondsToMicros (mkRat 151 2) < 0 then 0
              else secondsToMicros (mkRat 151 2))
        ++ " --> " ++ timedelta_to_srt_timestamp (secondsToMicros 80) ++ "\n"
        ++ make_legal_content "x" ++ "\n\n" :=
  claim_C5_amended.1 { start := mkRat 151 2, stop := 80, text := "x" } (by decide)

/-- A member of a string list is an infix of the joined string. -/
theorem joinList_mem_infix {l : List String} {s : String} (h : s ∈ l) :
    s.data <:+: (joinList l).data := by
  induction l with
  | nil => simp at h
  | cons a rest ih =>
    rcases List.mem_cons.mp h with h1 | h1
    · subst h1
      exact ⟨[], (joinList rest).data, by simp [joinList, String.data_append]⟩
    · obtain ⟨u, v, huv⟩ := ih h1
      exact ⟨a.data ++ u, v, by
        simp only [joinList, String.data_append, List.append_assoc]
        rw [← List.append_assoc u, huv]⟩

/-- `sort_and_reindex` keeps every subtitle with non-whitespace content,
altering only its index and (possibly) its clamped start — never its
content. -/
theorem reindexGo_content_mem : ∀ {subs : List Subtitle} {s : Subtitle}, s ∈ subs →
    isAllWhitespace s.content = false → ∀ (n k : Int),
    ∃ t ∈ reindexGo subs n k, t.content = s.content := by
  intro subs
  induction subs with
  | nil => intro s hs; simp at hs
  | cons a rest ih =>
    intro s hs hws n k
    rcases List.mem_cons.mp hs with h1 | h1
    · subst h1
      refine ⟨{ s with index := n - k, start := if s.start < 0 then 0 else s.start },
        ?_, rfl⟩
      simp [reindexGo, hws]
    · by_cases hwa : isAllWhitespace a.content = true
      · obtain ⟨t, ht, htc⟩ := ih h1 hws (n + 1) (k + 1)
        exact ⟨t, by simp only [reindexGo, hwa, if_true]; exact ht, htc⟩
      · obtain ⟨t, ht, htc⟩ := ih h1 hws (n + 1) k
        refine ⟨t, ?_, htc⟩
        simp only [reindexGo, hwa, if_false]
        exact List.mem_cons_of_mem _ ht

/-- The tail of a rendered cue block: newline, legalised content, blank
line. -/
theorem to_srt_data_suffix (t : Subtitle) :
    ('\n' :: ((make_legal_content t.content).data ++ ['\n', '\n'])) <:+:
      (to_srt t).data := by
  refine ⟨(toString t.index).data ++ ['\n']
      ++ (timedelta_to_srt_timestamp t.start).data ++ (" --> ").data
      ++ (timedelta_to_srt_timestamp t.stop).data
      ++ (if t.proprietary = "" then "" else " " ++ t.proprietary).data, [], ?_⟩
  simp [to_srt, String.data_append, List.append_assoc]

/-- C7 counterexample: text containing a blank line is not preserved
verbatim — `make_legal_content` (strict composition) deletes the empty
line, so the text `"a\n\nb"` is rendered as `"a\nb"`. -/
theorem claim_C7_counterexample :
    generate_srt [{ start := 0, stop := 1, text := "a\n\nb" }]
        = "1\n00:00:00,000 --> 00:00:01,000\na\nb\n\n" ∧
      ("a\n\nb" : String) ≠ "a\nb" :=
  ⟨by decide, by decide⟩

/-- C7 (amended): for every segment of the input whose text has a
non-whitespace character, does not start with a newline and contains no
two consecutive newlines, the produced SRT document contains that text
verbatim as a cue text block — i.e. the character sequence
newline, text, newline, newline occurs in the output.  (Texts that are
whitespace-only are dropped with their cue, and texts starting with a
newline or containing a blank line have their empty lines removed.) -/
theorem claim_C7_amended (segs : List Segment) (seg : Segment) (hmem : seg ∈ segs)
    (hws : isAllWhitespace seg.text = false)
    (hhead : seg.text.data.head? ≠ some '\n')
    (hnn : ¬ (['\n', '\n'] <:+: seg.text.data)) :
    ('\n' :: (seg.text.data ++ ['\n', '\n'])) <:+: (generate_srt segs).data := by
  have hne : seg.text.data ≠ [] := by
    intro h0
    rw [isAllWhitespace, h0] at hws
    simp at hws
  have hmlc : make_legal_content seg.text = seg.text := if_pos ⟨hne, hhead, hnn⟩
  obtain ⟨k, hk⟩ := toSubtitles_mem_of_mem 0 hmem
  have hk2 : mkSubtitle k seg ∈ (toSubtitles 0 segs).insertionSort subLE :=
    (List.perm_insertionSort subLE (toSubtitles 0 segs)).mem_iff.mpr hk
  obtain ⟨t, ht, htc⟩ := reindexGo_content_mem hk2 hws 1 0
  have hmap : to_srt t ∈ (sort_and_reindex (toSubtitles 0 segs)).map to_srt :=
    List.mem_map_of_mem to_srt ht
  have hinf : (to_srt t).data <:+: (generate_srt segs).data := joinList_mem_infix hmap
  refine List.IsInfix.trans ?_ hinf
  have hteq : make_legal_content t.content = seg.text := by
    rw [show t.content = seg.text from htc]
    exact hmlc
  have hs := to_srt_data_suffix t
  rw [hteq] at hs
  exact hs

/-- C7 witness: the amended theorem at a concrete segment whose text
contains an embedded newline. -/
theorem claim_C7_witness :
    ('\n' :: ((("l1\nl2" : String)).data ++ ['\n', '\n'])) <:+:
      (generate_srt [{ start := 0, stop := 1, text := "l1\nl2" }]).data :=
  claim_C7_amended [{ start := 0, stop := 1, text := "l1\nl2" }]
    { start := 0, stop := 1, text := "l1\nl2" }
    (by decide) (by decide) (by decide) (by decide)

/-! ### Claims about the processor pipeline and the GUI -/

/-- C2: if the external audio-extraction process exits with a non-zero
code, the job fails with the `CalledProcessError` (the specification's
`ExtractionError`) carrying the process's captured diagnostic output, and
neither transcription nor composition runs for that job. -/
theorem claim_C2 (env : JobEnv) (vp outf : String)
    (h : env.extract.run.exitCode ≠ 0) :
    (process_video env vp outf).2
        = Except.error (PyError.calledProcessError env.extract.run.exitCode
            env.extract.run.stderr) ∧
      Phase.transcription ∉ (process_video env vp outf).1 ∧
      Phase.composition ∉ (process_video env vp outf).1 := by
  simp [process_video, extract_audio, h]

/-- C2 witness: the job with the failing extraction process. -/
theorem claim_C2_witness :
    failingExtractJob.extract.run.exitCode ≠ 0 ∧
      (process_video failingExtractJob "v.mp4" "out").2
        = Except.error (PyError.calledProcessError 1 "boom") :=
  ⟨by decide, (claim_C2 failingExtractJob "v.mp4" "out" (by decide)).1⟩

theorem cancel_processing_is_processing (s : WorkerState) :
    (cancel_processing s).is_processing = false := by
  cases hb : s.is_processing <;> simp [cancel_processing, hb]

theorem cancel_processing_successShown (s : WorkerState) :
    (cancel_processing s).successShown = s.successShown := by
  cases hb : s.is_processing <;> simp [cancel_processing, hb]

/-- C3: if the cancellation flag is set after the extraction phase
completes and before transcription starts (cancel point 1), the success
notification never fires, and the worker thread still terminates cleanly,
reaching its normal exit with the processing flag reset — whatever the
remaining phases do. -/
theorem claim_C3 (env : JobEnv) (vp outf : String) (s0 : WorkerState)
    (h : s0.successShown = false) :
    (process_video_thread env vp outf (some 1) s0).successShown = false ∧
      (process_video_thread env vp outf (some 1) s0).is_processing = false := by
  unfold process_video_thread
  cases hx : extract_audio env.extract vp outf with
  | error e => simp [h]
  | ok ap =>
    cases ht : transcribe_audio env.transcribe with
    | error e => cases hb : s0.is_processing <;> simp [ht, cancel_processing, hb, h]
    | ok result =>
      cases hs : save_subtitles env.writeOk (generate_srt result.segments) vp outf with
      | error e =>
        cases hb : s0.is_processing <;> simp [ht, hs, cancel_processing, hb, h]
      | ok op =>
        cases hb : s0.is_processing <;> simp [ht, hs, cancel_processing, hb, h]

/-- C3 witness: a fully successful job, cancelled between extraction and
transcription, starting from the state `start_processing` leaves behind. -/
theorem claim_C3_witness :
    justStartedState.successShown = false ∧
      (process_video_thread successfulJob "v.mp4" "out" (some 1)
          justStartedState).successShown = false :=
  ⟨rfl, (claim_C3 successfulJob "v.mp4" "out" justStartedState rfl).1⟩

/-- C4: while a job is active (`is_processing` true), submitting a second
job is rejected with only a warning dialog: the state is returned
unchanged — video path, output folder, model, language, status, progress
and the processing flag all keep their values — and no worker thread is
started (the result is not `workerStarted`). -/
theorem claim_C4 (fs : FsEnv) (s : AppState) (h : s.is_processing = true) :
    start_processing fs s = (s, StartResult.warnedAlreadyProcessing) := by
  simp [start_processing, h]

/-- C4 witness: submission against a concrete busy state. -/
theorem claim_C4_witness :
    start_processing { pathExists := fun _ => true, ensureDirOk := fun _ => true }
        { video_path := "v.mp4", output_folder := "out", model_size := "tiny",
          language := "auto", status := "Processing", progress := 40,
          is_processing := true }
      = ({ video_path := "v.mp4", output_folder := "out", model_size := "tiny",
            language := "auto", status := "Processing", progress := 40,
            is_processing := true },
          StartResult.warnedAlreadyProcessing) :=
  claim_C4 { pathExists := fun _ => true, ensureDirOk := fun _ => true }
    { video_path := "v.mp4", output_folder := "out", model_size := "tiny",
      language := "auto", status := "Processing", progress := 40,
      is_processing := true } rfl

/-- C8 counterexample: `extract_audio` never checks the filesystem.  In an
environment where the external process exits 0 without producing the
output file, `extract_audio` still returns the derived audio path, yet the
file does not exist. -/
theorem claim_C8_counterexample :
    extract_audio { run := { exitCode := 0 }, fileWritten := false, fileSize := 0 }
        "v.mp4" "out" = Except.ok "out/v.mp3" ∧
      extractedFileExists { run := { exitCode := 0 }, fileWritten := false, fileSize := 0 }
        = false :=
  ⟨rfl, rfl⟩

/-- C8 (amended): `extract_audio` returns successfully (with the derived
audio path) exactly when the external process exits with code 0; it
performs no check that the output file exists or is non-empty, so its
result is independent of the filesystem effect of the process, and the
file at the returned path exists and is non-empty only when the process
actually wrote it. -/
theorem claim_C8_amended (env : ExtractEnv) (vp outf : String) :
    (extract_audio env vp outf = Except.ok (audioPath vp outf) ↔ env.run.exitCode = 0) ∧
      ∀ (written : Bool) (size : Nat),
        extract_audio { env with fileWritten := written, fileSize := size } vp outf
          = extract_audio env vp outf := by
  refine ⟨⟨?_, ?_⟩, ?_⟩
  · intro h
    by_cases h0 : env.run.exitCode = 0
    · exact h0
    · simp [extract_audio, h0] at h
  · intro h0
    simp [extract_audio, h0]
  · intro w sz
    simp [extract_audio]

/-- Each decoded 16-bit sample lies in the int16 range. -/
theorem bytesToInt16LE_bounds : ∀ (bytes : List Nat), (∀ b ∈ bytes, b < 256) →
    ∀ v ∈ bytesToInt16LE bytes, -32768 ≤ v ∧ v ≤ 32767
  | [] => by intro _ v hv; simp [bytesToInt16LE] at hv
  | [b] => by intro _ v hv; simp [bytesToInt16LE] at hv
  | lo :: hi :: rest => by
    intro h v hv
    have hlo : lo < 256 := h lo (List.mem_cons_self lo _)
    have hhi : hi < 256 := h hi (List.mem_cons_of_mem lo (List.mem_cons_self hi _))
    simp only [bytesToInt16LE, List.mem_cons] at hv
    rcases hv with h1 | h1
    · by_cases hc : ((lo : Int) + 256 * (hi : Int)) < 32768 <;>
        simp only [hc, if_true, if_false] at h1 <;> subst h1 <;> constructor <;> omega
    · exact bytesToInt16LE_bounds rest
        (fun b hb => h b (List.mem_cons_of_mem lo (List.mem_cons_of_mem hi hb))) v h1

/-- C9: the substituted waveform loader converts the resampling
subprocess's raw little-endian signed 16-bit PCM output by dividing each
sample by 32768, so every produced sample value lies in [-1, 1].  (Each
int16 value and its quotient by the power of two 32768 are exactly
representable in float32, so the rational samples equal the float32
ones.) -/
theorem claim_C9 (run : ProcResult) (samples : List ℚ)
    (hok : patched_load_audio run = Except.ok samples)
    (hbytes : ∀ b ∈ run.stdout, b < 256) :
    ∀ q ∈ samples, -1 ≤ q ∧ q ≤ 1 := by
  intro q hq
  have hsamples : samples = (bytesToInt16LE run.stdout).map fun v => mkRat v 32768 := by
    by_cases h1 : run.exitCode ≠ 0
    · simp [patched_load_audio, h1] at hok
    · by_cases h2 : run.stdout.length % 2 ≠ 0
      · simp [patched_load_audio, h1, h2] at hok
      · simp [patched_load_audio, h1, h2] at hok
        exact hok.symm
  subst hsamples
  obtain ⟨v, hv, hq2⟩ := List.mem_map.mp hq
  obtain ⟨hv1, hv2⟩ := bytesToInt16LE_bounds run.stdout hbytes v hv
  subst hq2
  rw [Rat.mkRat_eq_divInt, Rat.divInt_eq_div]
  push_cast
  constructor
  · rw [le_div_iff₀ (by norm_num : (0 : ℚ) < 32768)]
    have hc : (-32768 : ℚ) ≤ (v : ℚ) := by exact_mod_cast hv1
    linarith
  · rw [div_le_one (by norm_num : (0 : ℚ) < 32768)]
    have hc : (v : ℚ) ≤ 32767 := by exact_mod_cast hv2
    linarith

/-- C9 witness: the byte pair `0x00 0x80` decodes to the most negative
sample -32768/32768 = -1, which is within the bounds. -/
theorem claim_C9_witness :
    patched_load_audio { exitCode := 0, stdout := [0, 128] }
        = Except.ok [mkRat (-32768) 32768] ∧
      (-1 ≤ mkRat (-32768) 32768 ∧ mkRat (-32768) 32768 ≤ 1) :=
  ⟨by simp [patched_load_audio, bytesToInt16LE],
    claim_C9 { exitCode := 0, stdout := [0, 128] } [mkRat (-32768) 32768]
      (by simp [patched_load_audio, bytesToInt16LE])
      (by decide) (mkRat (-32768) 32768) (by simp)⟩

end SubGen
